import Mathlib

/-!
Shallow embedding of `src/Processors/QueryPlan/JoinStep.cpp` /
`JoinStep.h` (ClickHouse plan-layer join steps) and proofs of the
specification claims about them.

Modelling conventions:
* Machine `size_t` indices and counts become `Nat`.
* A `Block` header is an ordered list of (column name, column type) pairs.
* C++ exceptions become `Except Err`; `Err.logical_error` is
  `ErrorCodes::LOGICAL_ERROR`, `Err.out_of_range` is the
  `std::out_of_range` thrown by `std::vector::at`.
* External collaborators that are not part of the two source files
  (`IJoin`, `JoiningTransform`, `QueryPipelineBuilder`, `SortingStep`)
  are modelled from the spec, as documented on each definition.
-/

namespace DB

/-- Column header of a stream: ordered (name, type) column entries
("Stream Descriptor" column list in the spec's data model). -/
abbrev Header := List (String × String)

/-- Structure `DataStream`: the stream descriptor flowing between plan steps;
only its header is relevant to this core. -/
structure DataStream where
  header : Header
deriving Repr, DecidableEq, Inhabited

/-- Error classes observable from this core: `LOGICAL_ERROR`
(internal-consistency failure) and `std::out_of_range` (from
`std::vector::at`). -/
inductive Err where
  | logical_error
  | out_of_range
deriving Repr, DecidableEq

/-- Enum `JoinPipelineType` (execution shape): `YShaped` is the spec's
`Symmetric`, `FillRightFirst` is the spec's `BuildProbe`. -/
inductive JoinPipelineType where
  | YShaped
  | FillRightFirst
deriving Repr, DecidableEq

/-- Which side of the join a sort-preparation step serves
(`JoinTableSide`). -/
inductive JoinTableSide where
  | Left
  | Right
deriving Repr, DecidableEq

/-- Modelled from the spec: the join operator (`IJoin`) is an external
capability; this core consults only its declared pipeline type, its
header projection (`JoiningTransform::transformHeader`, which asks the
operator to project/extend a left header — the implementation lives
outside the two source files), whether it carries a totals row
(`getTotals`), and whether it is already materialized (`isFilled`). -/
structure Join where
  pipelineType : JoinPipelineType
  transformHeader : Header → Header
  getTotals : Bool
  isFilled : Bool

/-- Modelled from the spec: the sort-merge-capable operator facet
(`FullSortingMergeJoin`, implemented outside the two source files)
exposes per-side required key-column names and a per-side
already-guaranteed sort prefix. Sort descriptions are modelled as the
ordered list of key-column names (directions are defaulted by
`SortColumnDescription` and never varied in this core). -/
structure FullSortingMergeJoin where
  getKeyNames : JoinTableSide → List String
  getPrefixSortDesctiption : JoinTableSide → List String

/-- A sort description: ordered list of key-column names (see
`FullSortingMergeJoin`). -/
abbrev SortDescription := List String

/-- The loop body of `getSortDescription`: walk the key names, skipping a name
already in the `used_keys` set, inserting fresh names into the set
(the set is modelled as the list of names inserted so far). -/
def getSortDescriptionLoop : List String → List String → SortDescription
  | [], _ => []
  | key_name :: rest, used_keys =>
    if key_name ∈ used_keys then
      getSortDescriptionLoop rest used_keys
    else
      key_name :: getSortDescriptionLoop rest (key_name :: used_keys)

/-- Function `getSortDescription` (JoinStep.cpp:35-49): build a sort description
from the key names, skipping duplicate keys. -/
def getSortDescription (key_names : List String) : SortDescription :=
  getSortDescriptionLoop key_names []

/-- Modelled from the spec: a built pipeline (`QueryPipelineBuilder`,
implemented outside the two source files) as seen by this core: its
parallel non-totals output branches (each carrying a header) and an
optional totals branch. -/
structure QueryPipelineBuilder where
  streams : List Header
  totals : Option Header
deriving Repr, DecidableEq, Inhabited

/-- Modelled from the spec: whether the pipeline carries a totals
branch. -/
def QueryPipelineBuilder.hasTotals (p : QueryPipelineBuilder) : Bool :=
  p.totals.isSome

/-- Modelled from the spec: the number of parallel non-totals output
branches (the totals branch is a separate port and is not counted). -/
def QueryPipelineBuilder.getNumStreams (p : QueryPipelineBuilder) : Nat :=
  p.streams.length

/-- Modelled from the spec: the common header of the pipeline's
branches. -/
def QueryPipelineBuilder.getHeader (p : QueryPipelineBuilder) : Header :=
  p.streams.headD []

/-- Modelled from the spec: synthesize an empty default totals branch
(carrying the pipeline's header); the non-totals branches are
untouched. -/
def QueryPipelineBuilder.addDefaultTotals (p : QueryPipelineBuilder) : QueryPipelineBuilder :=
  { p with totals := some p.getHeader }

/-- Modelled from the spec: resize the pipeline's branch count to
exactly `n` branches (totals branch unaffected). -/
def QueryPipelineBuilder.resize (p : QueryPipelineBuilder) (n : Nat) : QueryPipelineBuilder :=
  { p with streams := List.replicate n p.getHeader }

/-- Stream kinds distinguished by a per-branch transform factory
(`QueryPipelineBuilder::StreamType`; extremes branches never occur in
this core's pipelines and are omitted). -/
inductive StreamType where
  | Main
  | Totals
deriving Repr, DecidableEq

/-- Structure `JoiningTransform` as constructed by this core: the branch input
header, the step output header, the per-block row limit, whether the
branch is the totals branch, whether the totals branch was synthesized
(`default_totals`), and the shared finish counter (`none` models the
null counter). The shared counter is represented by its seed value;
all non-totals branches receive the same one. -/
structure JoiningTransform where
  input_header : Header
  output_header : Header
  max_block_size : Nat
  on_totals : Bool
  default_totals : Bool
  counter : Option Nat
deriving Repr, DecidableEq

/-- Modelled from the spec: append a per-branch transform factory:
the factory is invoked once per non-totals branch (with `Main`) and
once for the totals branch when present (with `Totals`); each branch's
header becomes the created transform's output header. Returns the new
pipeline together with the list of created transforms. -/
def QueryPipelineBuilder.addSimpleTransform (p : QueryPipelineBuilder)
    (f : Header → StreamType → JoiningTransform) :
    QueryPipelineBuilder × List JoiningTransform :=
  let main_transforms := p.streams.map (fun h => f h StreamType.Main)
  let totals_transform := p.totals.map (fun h => f h StreamType.Totals)
  (⟨main_transforms.map (·.output_header), totals_transform.map (·.output_header)⟩,
    main_transforms ++ totals_transform.toList)

/-- Step property flags on the output data stream
(`ITransformingStep::DataStreamTraits`). -/
structure DataStreamTraits where
  preserves_distinct_columns : Bool
  returns_single_stream : Bool
  preserves_number_of_streams : Bool
  preserves_sorting : Bool
deriving Repr, DecidableEq

/-- Step property flags on the transform
(`ITransformingStep::TransformTraits`). -/
structure TransformTraits where
  preserves_number_of_rows : Bool
deriving Repr, DecidableEq

/-- Structure `ITransformingStep::Traits`: data-stream traits plus transform
traits. -/
structure Traits where
  data_stream_traits : DataStreamTraits
  transform_traits : TransformTraits
deriving Repr, DecidableEq

/-- Function `getStorageJoinTraits` (JoinStep.cpp:106-120): the fixed trait
flags of every `FilledJoinStep`. -/
def getStorageJoinTraits : Traits :=
  { data_stream_traits :=
      { preserves_distinct_columns := false
        returns_single_stream := false
        preserves_number_of_streams := true
        preserves_sorting := false }
    transform_traits :=
      { preserves_number_of_rows := false } }

/-- Function `getSortTraits` (JoinStep.cpp:159-173): the fixed trait flags of
every `SortForJoinStep`. -/
def getSortTraits : Traits :=
  { data_stream_traits :=
      { preserves_distinct_columns := true
        returns_single_stream := true
        preserves_number_of_streams := false
        preserves_sorting := false }
    transform_traits :=
      { preserves_number_of_rows := true } }

/-- Structure `JoinStep` (JoinStep.h:16-48): the two-input join orchestrator.
`input_streams` always holds the left stream then the right stream. -/
structure JoinStep where
  join : Join
  max_block_size : Nat
  max_streams : Nat
  keep_left_read_in_order : Bool
  input_streams : List DataStream
  output_stream : DataStream

/-- Constructor `JoinStep::JoinStep` (JoinStep.cpp:19-33): store the operator and
limits, set `input_streams = {left, right}` and derive the output
header by the operator's projection of the left header. -/
def JoinStep.construct (left_stream right_stream : DataStream) (join : Join)
    (max_block_size max_streams : Nat) (keep_left_read_in_order : Bool) : JoinStep :=
  { join := join
    max_block_size := max_block_size
    max_streams := max_streams
    keep_left_read_in_order := keep_left_read_in_order
    input_streams := [left_stream, right_stream]
    output_stream := ⟨join.transformHeader left_stream.header⟩ }

/-- Modelled from the spec: the two pipeline-merge primitives consumed
from the surrounding runtime (`QueryPipelineBuilder::joinPipelinesYShaped`
and `::joinPipelinesRightLeft`, implemented outside the two source
files); this core only forwards its arguments to them, so they are kept
abstract. -/
structure PipelineMergePrimitives where
  joinPipelinesYShaped :
    QueryPipelineBuilder → QueryPipelineBuilder → Header → Nat → QueryPipelineBuilder
  joinPipelinesRightLeft :
    QueryPipelineBuilder → QueryPipelineBuilder → Header → Nat → Nat → Bool →
      QueryPipelineBuilder

/-- Method `JoinStep::updatePipeline` (JoinStep.cpp:51-73): require exactly two
sub-pipelines (`LOGICAL_ERROR` otherwise); for a `YShaped` operator,
merge Y-shaped and resize to `max_streams`; otherwise merge right-left
passing `max_streams` and the left-order flag along. -/
def JoinStep.updatePipeline (env : PipelineMergePrimitives) (s : JoinStep)
    (pipelines : List QueryPipelineBuilder) : Except Err QueryPipelineBuilder :=
  if pipelines.length ≠ 2 then
    .error .logical_error
  else
    let p0 := pipelines.headD default
    let p1 := (pipelines.drop 1).headD default
    if s.join.pipelineType = JoinPipelineType.YShaped then
      let joined_pipeline :=
        env.joinPipelinesYShaped p0 p1 s.output_stream.header s.max_block_size
      .ok (joined_pipeline.resize s.max_streams)
    else
      .ok (env.joinPipelinesRightLeft p0 p1 s.output_stream.header
            s.max_block_size s.max_streams s.keep_left_read_in_order)

/-- Method `JoinStep::allowPushDownToRight` (JoinStep.cpp:75-78). -/
def JoinStep.allowPushDownToRight (s : JoinStep) : Bool :=
  s.join.pipelineType = JoinPipelineType.YShaped

/-- Method `JoinStep::updateInputStream` (JoinStep.cpp:85-99): index 0 replaces
the left stream and recomputes the output header from the new left
header; any other index replaces the right stream and leaves the output
stream untouched. `std::vector::at` is modelled by `[·]?`, with `none`
mapped to `Err.out_of_range`. -/
def JoinStep.updateInputStream (s : JoinStep) (new_input_stream : DataStream)
    (idx : Nat) : Except Err JoinStep :=
  if idx = 0 then
    match s.input_streams[1]? with
    | none => .error .out_of_range
    | some right =>
      .ok { s with
              input_streams := [new_input_stream, right]
              output_stream := ⟨s.join.transformHeader new_input_stream.header⟩ }
  else
    match s.input_streams[0]? with
    | none => .error .out_of_range
    | some left =>
      .ok { s with input_streams := [left, new_input_stream] }

/-- Structure `FilledJoinStep` (JoinStep.h:52-65): transforming step carrying the
filled join operator; `input_streams`, `output_stream` and the traits
come from the `ITransformingStep` base. -/
structure FilledJoinStep where
  input_streams : List DataStream
  output_stream : DataStream
  traits : Traits
  join : Join
  max_block_size : Nat

/-- Constructor `FilledJoinStep::FilledJoinStep` (JoinStep.cpp:122-132): initialize
the base with the input stream, the projected output header and
`getStorageJoinTraits()`; throw `LOGICAL_ERROR` when the operator is
not filled. -/
def FilledJoinStep.construct (input_stream : DataStream) (join : Join)
    (max_block_size : Nat) : Except Err FilledJoinStep :=
  let step : FilledJoinStep :=
    { input_streams := [input_stream]
      output_stream := ⟨join.transformHeader input_stream.header⟩
      traits := getStorageJoinTraits
      join := join
      max_block_size := max_block_size }
  if !join.isFilled then .error .logical_error else .ok step

/-- Method `FilledJoinStep::transformPipeline` (JoinStep.cpp:134-151): possibly
synthesize a default totals branch, seed the shared finish counter with
the pipeline's stream count, and add one joining transform per branch
(null counter on the totals branch). Returns the transformed pipeline
and the created transforms. -/
def FilledJoinStep.transformPipeline (step : FilledJoinStep)
    (pipeline : QueryPipelineBuilder) : QueryPipelineBuilder × List JoiningTransform :=
  let default_totals := !pipeline.hasTotals && step.join.getTotals
  let pipeline := if default_totals then pipeline.addDefaultTotals else pipeline
  let finish_counter := pipeline.getNumStreams
  pipeline.addSimpleTransform fun header stream_type =>
    let on_totals := stream_type = StreamType.Totals
    let counter := if on_totals then none else some finish_counter
    { input_header := header
      output_header := step.output_stream.header
      max_block_size := step.max_block_size
      on_totals := on_totals
      default_totals := default_totals
      counter := counter }

/-- Method `FilledJoinStep::updateOutputStream` (JoinStep.cpp:153-157):
recompute the output stream from the front input stream's projected
header, keeping the step's traits. -/
def FilledJoinStep.updateOutputStream (s : FilledJoinStep) : FilledJoinStep :=
  { s with output_stream :=
      ⟨s.join.transformHeader (s.input_streams.headD default).header⟩ }

/-- Modelled from the spec: the generic sort sub-step (`SortingStep`,
implemented outside the two source files) as configured by this core:
a full sort over `result_description` with a row `limit` (0 = no
limit), optionally converted into a finish sort constrained to
`prefix_description`. -/
structure SortingStep where
  input_stream : DataStream
  result_description : SortDescription
  limit : Nat
  optimize_sorting_by_input_stream_properties : Bool
  is_finish_sorting : Bool
  prefix_description : SortDescription
  step_description : String
deriving Repr, DecidableEq, Inhabited

/-- Modelled from the spec: `SortingStep`'s full-sort constructor. -/
def SortingStep.construct (input_stream : DataStream)
    (description : SortDescription) (limit : Nat)
    (optimize_sorting_by_input_stream_properties : Bool) : SortingStep :=
  { input_stream := input_stream
    result_description := description
    limit := limit
    optimize_sorting_by_input_stream_properties := optimize_sorting_by_input_stream_properties
    is_finish_sorting := false
    prefix_description := []
    step_description := "" }

/-- Modelled from the spec: `SortingStep::convertToFinishSorting`
constrains the sort to the given already-guaranteed prefix. -/
def SortingStep.convertToFinishSorting (s : SortingStep)
    (prefix_description : SortDescription) : SortingStep :=
  { s with is_finish_sorting := true, prefix_description := prefix_description }

/-- Modelled from the spec: `SortingStep::setStepDescription`. -/
def SortingStep.setStepDescription (s : SortingStep) (d : String) : SortingStep :=
  { s with step_description := d }

/-- Structure `SortForJoinStep` (modelled from the spec; only its declarations
and this implementation file are in the sources): single-use
sort-preparation step over one side of a sort-merge join, with the
lazily built `sorting_step`. -/
structure SortForJoinStep where
  input_streams : List DataStream
  output_stream : DataStream
  traits : Traits
  sorting_join : FullSortingMergeJoin
  join_side : JoinTableSide
  sorting_step : Option SortingStep
  step_description : String

/-- Constructor `SortForJoinStep::SortForJoinStep` (JoinStep.cpp:175-179):
initialize the base with the input stream, the unchanged header and
`getSortTraits()`; no sorting sub-step is built yet. -/
def SortForJoinStep.construct (input_stream : DataStream)
    (join_ptr : FullSortingMergeJoin) (join_side : JoinTableSide) : SortForJoinStep :=
  { input_streams := [input_stream]
    output_stream := ⟨input_stream.header⟩
    traits := getSortTraits
    sorting_join := join_ptr
    join_side := join_side
    sorting_step := none
    step_description := "" }

/-- Human-readable side tag used in the step description. -/
def JoinTableSide.format : JoinTableSide → String
  | .Left => "LEFT"
  | .Right => "RIGHT"

/-- Method `SortForJoinStep::transformPipeline` (JoinStep.cpp:181-213): throw
`LOGICAL_ERROR` when the sorting sub-step was already built; otherwise
build a full sort over the deduplicated key names with limit 0, convert
it to a finish sort exactly when the operator reports a non-empty
guaranteed sort prefix for this side, record the descriptions, and
return the updated step together with the sub-step it delegated to. -/
def SortForJoinStep.transformPipeline (s : SortForJoinStep) :
    Except Err (SortForJoinStep × SortingStep) :=
  if s.sorting_step.isSome then
    .error .logical_error
  else
    let sort_description := getSortDescription (s.sorting_join.getKeyNames s.join_side)
    let sorting_step :=
      SortingStep.construct (s.input_streams.headD default) sort_description 0 false
    let prefix_sort_description := s.sorting_join.getPrefixSortDesctiption s.join_side
    let sorting_step :=
      if prefix_sort_description ≠ [] then
        sorting_step.convertToFinishSorting prefix_sort_description
      else
        sorting_step
    let sorting_step := sorting_step.setStepDescription "Sorting for JOIN"
    .ok ({ s with
            sorting_step := some sorting_step
            step_description := "Sorting for " ++ s.join_side.format ++ " side of JOIN" },
         sorting_step)

/-- Method `SortForJoinStep::updateOutputStream` (JoinStep.cpp:215-218):
recompute the output stream from the front input stream's header,
keeping the step's traits. -/
def SortForJoinStep.updateOutputStream (s : SortForJoinStep) : SortForJoinStep :=
  { s with output_stream := ⟨(s.input_streams.headD default).header⟩ }

/-! Concrete fixtures used by witnesses and counterexamples. -/

/-- A concrete left input stream. -/
def exLeftStream : DataStream := ⟨[("l1", "UInt64"), ("k", "String")]⟩

/-- A concrete right input stream. -/
def exRightStream : DataStream := ⟨[("r1", "UInt64"), ("k", "String")]⟩

/-- A concrete replacement input stream. -/
def exNewStream : DataStream := ⟨[("l2", "Int32"), ("k", "String")]⟩

/-- A concrete header projection: append one nullable right column. -/
def exProjection (h : Header) : Header := h ++ [("r1", "Nullable(UInt64)")]

/-- A concrete build-probe (`FillRightFirst`) operator. -/
def exJoin : Join :=
  { pipelineType := .FillRightFirst
    transformHeader := exProjection
    getTotals := false
    isFilled := false }

/-- A concrete symmetric (`YShaped`) operator. -/
def exYJoin : Join :=
  { pipelineType := .YShaped
    transformHeader := exProjection
    getTotals := false
    isFilled := false }

/-- A concrete filled operator that declares a totals row. -/
def exFilledJoin : Join :=
  { pipelineType := .FillRightFirst
    transformHeader := exProjection
    getTotals := true
    isFilled := true }

/-- A concrete `JoinStep` over the fixture streams and operator. -/
def exJoinStep : JoinStep :=
  JoinStep.construct exLeftStream exRightStream exJoin 65536 4 false

/-- A concrete `JoinStep` with a symmetric operator. -/
def exYJoinStep : JoinStep :=
  JoinStep.construct exLeftStream exRightStream exYJoin 65536 4 false

/-- Concrete merge primitives: Y-shaped merge concatenates branch
lists, right-left merge keeps the left pipeline. -/
def exEnv : PipelineMergePrimitives :=
  { joinPipelinesYShaped := fun p0 p1 _ _ => ⟨p0.streams ++ p1.streams, none⟩
    joinPipelinesRightLeft := fun p0 _ _ _ _ _ => p0 }

/-- A concrete three-branch pipeline without a totals branch. -/
def exPipe : QueryPipelineBuilder :=
  ⟨[exLeftStream.header, exLeftStream.header, exLeftStream.header], none⟩

/-- A concrete one-branch pipeline. -/
def exPipeOne : QueryPipelineBuilder := ⟨[exRightStream.header], none⟩

/-- The concrete `FilledJoinStep` built by the constructor over the
fixture stream and filled operator. -/
def exFilledStep : FilledJoinStep :=
  { input_streams := [exLeftStream]
    output_stream := ⟨exFilledJoin.transformHeader exLeftStream.header⟩
    traits := getStorageJoinTraits
    join := exFilledJoin
    max_block_size := 8 }

/-- The first transform created when materializing `exFilledStep` over
`exPipe` (a non-totals branch transform). -/
def exMainTransform : JoiningTransform :=
  { input_header := exLeftStream.header
    output_header := exFilledStep.output_stream.header
    max_block_size := 8
    on_totals := false
    default_totals := true
    counter := some 3 }

/-- The totals-branch transform created when materializing
`exFilledStep` over `exPipe`. -/
def exTotalsTransform : JoiningTransform :=
  { input_header := exLeftStream.header
    output_header := exFilledStep.output_stream.header
    max_block_size := 8
    on_totals := true
    default_totals := true
    counter := none }

/-- A concrete sort-merge operator facet: keys `[a, a, b]` on both
sides, guaranteed prefix `[a]` on the right side only. -/
def exSortJoin : FullSortingMergeJoin :=
  { getKeyNames := fun _ => ["a", "a", "b"]
    getPrefixSortDesctiption := fun side =>
      match side with
      | .Left => []
      | .Right => ["a"] }

/-- A concrete fresh left-side sort-preparation step. -/
def exSortStep : SortForJoinStep :=
  SortForJoinStep.construct exLeftStream exSortJoin JoinTableSide.Left

/-- The result of materializing `exSortStep` once. -/
def exSortStepResult : SortForJoinStep × SortingStep :=
  exSortStep.transformPipeline.toOption.getD (exSortStep, default)

/-- The already-materialized sort-preparation step. -/
def exSortStepBuilt : SortForJoinStep := exSortStepResult.1

/-! Helper lemmas about the key-deduplication loop. -/

/-- Membership in the loop's result: exactly the names of the remaining
input that are not yet in the used set. -/
theorem getSortDescriptionLoop_mem (l used : List String) (a : String) :
    a ∈ getSortDescriptionLoop l used ↔ a ∈ l ∧ a ∉ used := by
  induction l generalizing used with
  | nil => simp [getSortDescriptionLoop]
  | cons k ks ih =>
    by_cases hk : k ∈ used
    · simp only [getSortDescriptionLoop, if_pos hk, ih, List.mem_cons]
      constructor
      · rintro ⟨ha, hna⟩
        exact ⟨Or.inr ha, hna⟩
      · rintro ⟨ha | ha, hna⟩
        · exact absurd (ha ▸ hk) hna
        · exact ⟨ha, hna⟩
    · simp only [getSortDescriptionLoop, if_neg hk, List.mem_cons, ih]
      constructor
      · rintro (rfl | ⟨ha, hna⟩)
        · exact ⟨Or.inl rfl, hk⟩
        · exact ⟨Or.inr ha, fun h => hna (Or.inr h)⟩
      · rintro ⟨ha | ha, hna⟩
        · exact Or.inl ha
        · by_cases hak : a = k
          · exact Or.inl hak
          · exact Or.inr ⟨ha, by simp [hak, hna]⟩

/-- The loop's result is a sublist of the remaining input. -/
theorem getSortDescriptionLoop_sublist (l used : List String) :
    (getSortDescriptionLoop l used).Sublist l := by
  induction l generalizing used with
  | nil => simp [getSortDescriptionLoop]
  | cons k ks ih =>
    by_cases hk : k ∈ used
    · simpa [getSortDescriptionLoop, hk] using (ih used).cons k
    · simpa [getSortDescriptionLoop, hk] using (ih (k :: used)).cons₂ k

/-- The loop's result is duplicate-free. -/
theorem getSortDescriptionLoop_nodup (l used : List String) :
    (getSortDescriptionLoop l used).Nodup := by
  induction l generalizing used with
  | nil => simp [getSortDescriptionLoop]
  | cons k ks ih =>
    by_cases hk : k ∈ used
    · simpa [getSortDescriptionLoop, hk] using ih used
    · simp only [getSortDescriptionLoop, if_neg hk]
      refine List.nodup_cons.mpr ⟨?_, ih (k :: used)⟩
      intro hmem
      exact ((getSortDescriptionLoop_mem ks (k :: used) k).mp hmem).2
        (List.mem_cons_self k used)

/-- The loop's result lists names in order of their first occurrence in
the remaining input. -/
theorem getSortDescriptionLoop_pairwise (l used : List String) :
    (getSortDescriptionLoop l used).Pairwise
      (fun a b => l.indexOf a < l.indexOf b) := by
  induction l generalizing used with
  | nil => simp [getSortDescriptionLoop]
  | cons k ks ih =>
    by_cases hk : k ∈ used
    · simp only [getSortDescriptionLoop, if_pos hk]
      refine List.Pairwise.imp_of_mem ?_ (ih used)
      intro a b ha hb hab
      have hka : k ≠ a := fun h =>
        ((getSortDescriptionLoop_mem ks used a).mp ha).2 (h ▸ hk)
      have hkb : k ≠ b := fun h =>
        ((getSortDescriptionLoop_mem ks used b).mp hb).2 (h ▸ hk)
      rw [List.indexOf_cons_ne _ hka, List.indexOf_cons_ne _ hkb]
      exact Nat.succ_lt_succ hab
    · simp only [getSortDescriptionLoop, if_neg hk]
      refine List.pairwise_cons.mpr ⟨?_, ?_⟩
      · intro b hb
        have hkb : k ≠ b := fun h =>
          ((getSortDescriptionLoop_mem ks (k :: used) b).mp hb).2
            (h ▸ List.mem_cons_self k used)
        rw [List.indexOf_cons_self, List.indexOf_cons_ne _ hkb]
        exact Nat.succ_pos _
      · refine List.Pairwise.imp_of_mem ?_ (ih (k :: used))
        intro a b ha hb hab
        have hka : k ≠ a := fun h =>
          ((getSortDescriptionLoop_mem ks (k :: used) a).mp ha).2
            (h ▸ List.mem_cons_self k used)
        have hkb : k ≠ b := fun h =>
          ((getSortDescriptionLoop_mem ks (k :: used) b).mp hb).2
            (h ▸ List.mem_cons_self k used)
        rw [List.indexOf_cons_ne _ hka, List.indexOf_cons_ne _ hkb]
        exact Nat.succ_lt_succ hab

/-! Claim theorems. -/

/-- C1 counterexample: replacing an input of a concrete `JoinStep` at
index 2 (outside {0,1}) does not raise the internal-consistency
(logical) error; it succeeds and replaces the right input, refuting the
claim that any index outside {0,1} is fatal. -/
theorem updateInputStream_index_two_counterexample :
    exJoinStep.updateInputStream exNewStream 2 =
      Except.ok { exJoinStep with input_streams := [exLeftStream, exNewStream] } ∧
    exJoinStep.updateInputStream exNewStream 2 ≠ Except.error Err.logical_error := by
  refine ⟨rfl, fun h => ?_⟩
  rw [show exJoinStep.updateInputStream exNewStream 2 =
        Except.ok { exJoinStep with input_streams := [exLeftStream, exNewStream] }
      from rfl] at h
  exact Except.noConfusion h

/-- C1 amended: for every `JoinStep` holding its two input streams,
every new input descriptor and every index other than 0 (in particular
every index outside {0,1}), the input-replacement operation does not
raise any error: it succeeds, replacing the right input exactly as
index 1 does and leaving the output stream untouched. -/
theorem updateInputStream_nonzero_index_replaces_right (s : JoinStep)
    (new_input l r : DataStream) (idx : Nat) (h0 : idx ≠ 0)
    (h : s.input_streams = [l, r]) :
    s.updateInputStream new_input idx =
      Except.ok { s with input_streams := [l, new_input] } := by
  simp [JoinStep.updateInputStream, h0, h]

/-- C1 amended witness: the amended statement at index 2 on the
concrete fixture step. -/
theorem updateInputStream_nonzero_index_replaces_right_witness :
    exJoinStep.updateInputStream exNewStream 2 =
      Except.ok { exJoinStep with input_streams := [exLeftStream, exNewStream] } :=
  updateInputStream_nonzero_index_replaces_right exJoinStep exNewStream
    exLeftStream exRightStream 2 (by decide) rfl

/-- C2: replacing the left input (index 0) recomputes the output
stream as the operator's projection of the new left header; replacing
the right input (index 1) only swaps the stored right descriptor and
leaves the output stream exactly unchanged. -/
theorem updateInputStream_left_recomputes_right_keeps_output (s : JoinStep)
    (new_input l r : DataStream) (h : s.input_streams = [l, r]) :
    s.updateInputStream new_input 0 =
      Except.ok { s with
                    input_streams := [new_input, r]
                    output_stream := ⟨s.join.transformHeader new_input.header⟩ } ∧
    s.updateInputStream new_input 1 =
      Except.ok { s with input_streams := [l, new_input] } ∧
    JoinStep.output_stream { s with input_streams := [l, new_input] } =
      s.output_stream := by
  refine ⟨?_, ?_, rfl⟩ <;> simp [JoinStep.updateInputStream, h]

/-- C2 witness: the replacement behavior on the concrete fixture
step. -/
theorem updateInputStream_left_recomputes_right_keeps_output_witness :
    exJoinStep.updateInputStream exNewStream 0 =
      Except.ok { exJoinStep with
                    input_streams := [exNewStream, exRightStream]
                    output_stream := ⟨exJoinStep.join.transformHeader exNewStream.header⟩ } ∧
    exJoinStep.updateInputStream exNewStream 1 =
      Except.ok { exJoinStep with input_streams := [exLeftStream, exNewStream] } ∧
    JoinStep.output_stream { exJoinStep with input_streams := [exLeftStream, exNewStream] } =
      exJoinStep.output_stream :=
  updateInputStream_left_recomputes_right_keeps_output exJoinStep exNewStream
    exLeftStream exRightStream rfl

/-- C5: the realized sort-key list is duplicate-free, is a subsequence
of the input key list, contains exactly the input's names, lists them
in order of first occurrence in the input, and in particular maps
`[a, a, b]` to `[a, b]`. -/
theorem getSortDescription_dedup_keeps_first_occurrence (key_names : List String) :
    (getSortDescription key_names).Nodup ∧
    (getSortDescription key_names).Sublist key_names ∧
    (∀ a, a ∈ getSortDescription key_names ↔ a ∈ key_names) ∧
    (getSortDescription key_names).Pairwise
      (fun a b => key_names.indexOf a < key_names.indexOf b) ∧
    getSortDescription ["a", "a", "b"] = ["a", "b"] := by
  refine ⟨getSortDescriptionLoop_nodup key_names [],
    getSortDescriptionLoop_sublist key_names [], ?_,
    getSortDescriptionLoop_pairwise key_names [], by decide⟩
  intro a
  simpa using getSortDescriptionLoop_mem key_names [] a

/-- C6: for every `JoinStep` whose operator declares the `YShaped`
(symmetric) shape and every two input pipelines, materialization
succeeds with a pipeline resized to exactly `max_streams` branches. -/
theorem updatePipeline_yshaped_resizes_to_max_streams
    (env : PipelineMergePrimitives) (s : JoinStep)
    (p0 p1 : QueryPipelineBuilder)
    (h : s.join.pipelineType = JoinPipelineType.YShaped) :
    ∃ out, s.updatePipeline env [p0, p1] = Except.ok out ∧
      out.getNumStreams = s.max_streams := by
  refine ⟨(env.joinPipelinesYShaped p0 p1 s.output_stream.header
      s.max_block_size).resize s.max_streams, ?_, ?_⟩
  · simp [JoinStep.updatePipeline, h]
  · simp [QueryPipelineBuilder.resize, QueryPipelineBuilder.getNumStreams]

/-- C6 witness: the symmetric fixture step over a three-branch and a
one-branch pipeline yields exactly `max_streams` branches. -/
theorem updatePipeline_yshaped_resizes_to_max_streams_witness :
    ∃ out, exYJoinStep.updatePipeline exEnv [exPipe, exPipeOne] = Except.ok out ∧
      out.getNumStreams = exYJoinStep.max_streams :=
  updatePipeline_yshaped_resizes_to_max_streams exEnv exYJoinStep exPipe exPipeOne rfl

/-- C7: the pushdown-permission query returns true exactly for the
`YShaped` (symmetric) shape and false exactly for `FillRightFirst`
(build-probe). -/
theorem allowPushDownToRight_iff_yshaped (s : JoinStep) :
    (s.allowPushDownToRight = true ↔
      s.join.pipelineType = JoinPipelineType.YShaped) ∧
    (s.allowPushDownToRight = false ↔
      s.join.pipelineType = JoinPipelineType.FillRightFirst) := by
  cases h : s.join.pipelineType <;>
    simp [JoinStep.allowPushDownToRight, h]

/-- C8: materializing a `JoinStep` with a sub-pipeline list whose
length is not two raises the internal-consistency (logical) error. -/
theorem updatePipeline_requires_two_pipelines
    (env : PipelineMergePrimitives) (s : JoinStep)
    (pipelines : List QueryPipelineBuilder) (h : pipelines.length ≠ 2) :
    s.updatePipeline env pipelines = Except.error Err.logical_error := by
  simp [JoinStep.updatePipeline, h]

/-- C8 witness: one and three sub-pipelines both raise the logical
error on the concrete fixture step. -/
theorem updatePipeline_requires_two_pipelines_witness :
    exJoinStep.updatePipeline exEnv [exPipeOne] = Except.error Err.logical_error ∧
    exJoinStep.updatePipeline exEnv [exPipeOne, exPipe, exPipeOne] =
      Except.error Err.logical_error :=
  ⟨updatePipeline_requires_two_pipelines exEnv exJoinStep [exPipeOne] (by simp),
   updatePipeline_requires_two_pipelines exEnv exJoinStep
     [exPipeOne, exPipe, exPipeOne] (by simp)⟩

/-- C3: materializing a `FilledJoinStep` synthesizes a totals branch
exactly when the upstream pipeline lacks one and the operator declares
totals; every created transform carries the synthesized-totals flag
(true exactly in that case); one transform is created per output
branch; every non-totals transform receives the shared counter seeded
with the pipeline's non-totals stream count, and the totals transform
receives the null counter. -/
theorem filledJoin_transformPipeline_totals_and_counter (step : FilledJoinStep)
    (pipeline : QueryPipelineBuilder) :
    ((step.transformPipeline pipeline).1.hasTotals =
       (pipeline.hasTotals || step.join.getTotals)) ∧
    (∀ t ∈ (step.transformPipeline pipeline).2,
       t.default_totals = (!pipeline.hasTotals && step.join.getTotals)) ∧
    ((step.transformPipeline pipeline).2.length =
       pipeline.getNumStreams +
         (if pipeline.hasTotals || step.join.getTotals then 1 else 0)) ∧
    (∀ t ∈ (step.transformPipeline pipeline).2,
       t.counter = if t.on_totals then none else some pipeline.getNumStreams) ∧
    (((step.transformPipeline pipeline).2.filter (·.on_totals)).length =
       if pipeline.hasTotals || step.join.getTotals then 1 else 0) := by
  obtain ⟨streams, totals⟩ := pipeline
  cases totals <;> cases hg : step.join.getTotals <;>
    simp [FilledJoinStep.transformPipeline, QueryPipelineBuilder.hasTotals,
      QueryPipelineBuilder.addDefaultTotals, QueryPipelineBuilder.addSimpleTransform,
      QueryPipelineBuilder.getNumStreams, QueryPipelineBuilder.getHeader, hg,
      List.mem_map, List.filter_map, Function.comp]
  all_goals
    refine ⟨?_, ?_⟩ <;> rintro t (⟨a, -, rfl⟩ | rfl) <;> simp

/-- C3 witness: over the concrete three-branch, totals-free pipeline
and the filled operator declaring totals, a main-branch transform and
the totals-branch transform receive the stated flags and counters. -/
theorem filledJoin_transformPipeline_totals_and_counter_witness :
    exMainTransform.default_totals = (!exPipe.hasTotals && exFilledStep.join.getTotals) ∧
    exMainTransform.counter =
      (if exMainTransform.on_totals then none else some exPipe.getNumStreams) ∧
    exTotalsTransform.counter =
      (if exTotalsTransform.on_totals then none else some exPipe.getNumStreams) :=
  ⟨(filledJoin_transformPipeline_totals_and_counter exFilledStep exPipe).2.1
      exMainTransform (by decide),
   (filledJoin_transformPipeline_totals_and_counter exFilledStep exPipe).2.2.2.1
      exMainTransform (by decide),
   (filledJoin_transformPipeline_totals_and_counter exFilledStep exPipe).2.2.2.1
      exTotalsTransform (by decide)⟩

/-- C4: the first materialization of a `SortForJoinStep` builds a full
sort over the deduplicated key list of its side with row limit 0, and
the sort is converted into a finish sort constrained to the operator's
guaranteed sort prefix exactly when that prefix is non-empty; with an
empty prefix the full sort is kept unchanged. -/
theorem sortForJoin_first_materialization (s : SortForJoinStep)
    (h : s.sorting_step = none) :
    ∃ st, s.transformPipeline = Except.ok
        ({ s with
             sorting_step := some st
             step_description :=
               "Sorting for " ++ s.join_side.format ++ " side of JOIN" },
         st) ∧
      st.result_description =
        getSortDescription (s.sorting_join.getKeyNames s.join_side) ∧
      st.limit = 0 ∧
      (st.is_finish_sorting = true ↔
        s.sorting_join.getPrefixSortDesctiption s.join_side ≠ []) ∧
      (st.is_finish_sorting = true →
        st.prefix_description =
          s.sorting_join.getPrefixSortDesctiption s.join_side) ∧
      (s.sorting_join.getPrefixSortDesctiption s.join_side = [] →
        st.is_finish_sorting = false ∧ st.prefix_description = []) := by
  by_cases hp : s.sorting_join.getPrefixSortDesctiption s.join_side = []
  · refine ⟨(SortingStep.construct (s.input_streams.headD default)
        (getSortDescription (s.sorting_join.getKeyNames s.join_side)) 0
        false).setStepDescription "Sorting for JOIN", ?_, rfl, rfl, ?_, ?_, ?_⟩
    · simp [SortForJoinStep.transformPipeline, h, hp]
    · simp [SortingStep.construct, SortingStep.setStepDescription, hp]
    · intro hfin
      simp [SortingStep.construct, SortingStep.setStepDescription] at hfin
    · intro _
      exact ⟨rfl, rfl⟩
  · refine ⟨((SortingStep.construct (s.input_streams.headD default)
        (getSortDescription (s.sorting_join.getKeyNames s.join_side)) 0
        false).convertToFinishSorting
          (s.sorting_join.getPrefixSortDesctiption s.join_side)).setStepDescription
            "Sorting for JOIN", ?_, rfl, rfl, ?_, ?_, ?_⟩
    · simp [SortForJoinStep.transformPipeline, h, hp]
    · simp [SortingStep.construct, SortingStep.setStepDescription,
        SortingStep.convertToFinishSorting, hp]
    · intro _
      rfl
    · intro he
      exact absurd he hp

/-- C4 witness: the first materialization of the concrete left-side
sort-preparation step (keys `[a, a, b]`, empty guaranteed prefix). -/
theorem sortForJoin_first_materialization_witness :
    ∃ st, exSortStep.transformPipeline = Except.ok
        ({ exSortStep with
             sorting_step := some st
             step_description :=
               "Sorting for " ++ exSortStep.join_side.format ++ " side of JOIN" },
         st) ∧
      st.result_description =
        getSortDescription (exSortStep.sorting_join.getKeyNames exSortStep.join_side) ∧
      st.limit = 0 ∧
      (st.is_finish_sorting = true ↔
        exSortStep.sorting_join.getPrefixSortDesctiption exSortStep.join_side ≠ []) ∧
      (st.is_finish_sorting = true →
        st.prefix_description =
          exSortStep.sorting_join.getPrefixSortDesctiption exSortStep.join_side) ∧
      (exSortStep.sorting_join.getPrefixSortDesctiption exSortStep.join_side = [] →
        st.is_finish_sorting = false ∧ st.prefix_description = []) :=
  sortForJoin_first_materialization exSortStep rfl

/-- C9: materializing a `SortForJoinStep` whose sorting sub-step has
already been built raises the internal-consistency (logical) error. -/
theorem sortForJoin_second_materialization_fails (s : SortForJoinStep)
    (st : SortingStep) (h : s.sorting_step = some st) :
    s.transformPipeline = Except.error Err.logical_error := by
  simp [SortForJoinStep.transformPipeline, h]

/-- C9 witness: materializing the already-materialized concrete
sort-preparation step fails with the logical error. -/
theorem sortForJoin_second_materialization_fails_witness :
    exSortStepBuilt.transformPipeline = Except.error Err.logical_error :=
  sortForJoin_second_materialization_fails exSortStepBuilt exSortStepResult.2 rfl

/-- C10: the two trait constants carry exactly the claimed fixed
flags; every constructed `FilledJoinStep` carries the storage-join
traits and every constructed `SortForJoinStep` the sort traits, and no
operation on either step changes them. -/
theorem step_traits_fixed :
    getStorageJoinTraits = ⟨⟨false, false, true, false⟩, ⟨false⟩⟩ ∧
    getSortTraits = ⟨⟨true, true, false, false⟩, ⟨true⟩⟩ ∧
    (∀ input_stream join max_block_size s,
      FilledJoinStep.construct input_stream join max_block_size = Except.ok s →
        s.traits = getStorageJoinTraits) ∧
    (∀ s : FilledJoinStep, s.updateOutputStream.traits = s.traits) ∧
    (∀ input_stream join_ptr join_side,
      (SortForJoinStep.construct input_stream join_ptr join_side).traits =
        getSortTraits) ∧
    (∀ (s : SortForJoinStep) r, s.transformPipeline = Except.ok r →
        r.1.traits = s.traits) ∧
    (∀ s : SortForJoinStep, s.updateOutputStream.traits = s.traits) := by
  refine ⟨rfl, rfl, ?_, fun s => rfl, fun a b c => rfl, ?_, fun s => rfl⟩
  · intro is j m s hok
    unfold FilledJoinStep.construct at hok
    by_cases hf : j.isFilled
    · simp only [hf, Bool.not_true, if_neg (Bool.false_ne_true ·), Bool.not_false,
        if_false, Except.ok.injEq] at hok
      subst hok
      rfl
    · simp [hf] at hok
  · intro s r hok
    unfold SortForJoinStep.transformPipeline at hok
    by_cases hs : s.sorting_step.isSome
    · simp [hs] at hok
    · simp only [hs, if_false, Bool.false_eq_true, Except.ok.injEq] at hok
      subst hok
      rfl

/-- C10 witness: the concrete constructed filled-join step carries the
storage-join traits, and the materialized sort-preparation step keeps
the traits of the fresh one. -/
theorem step_traits_fixed_witness :
    exFilledStep.traits = getStorageJoinTraits ∧
    exSortStepBuilt.traits = exSortStep.traits :=
  ⟨step_traits_fixed.2.2.1 exLeftStream exFilledJoin 8 exFilledStep rfl,
   step_traits_fixed.2.2.2.2.2.1 exSortStep exSortStepResult rfl⟩

end DB
